import Mathlib

/-!
Verification of the email validation server (`src/index.js`)

Shallow embedding of the validation pipeline: the deduplicator
(`filterDuplicateEmails`), the syntactic checks (`isEmailFormatValid`), the
cache-backed resolver (`hasMXRecord`, `checkSPF`), the per-address classifier
(`validateEmail`), the chunked batch handler (`/validate-batch`) and the
chunked streaming handler (`/validate-stream`).

External collaborators (the `validator` and `mailcheck` npm libraries and the
DNS resolver) are modelled as explicit parameters (`Env`, `Dns`): theorems
quantify over their behaviour, and witnesses instantiate them concretely.
DNS traffic and backoff sleeps are returned as ghost traces (`Lookup` lists,
delay lists) so that "no lookup is performed" is a provable statement.
-/

set_option autoImplicit false

namespace EmailServer

/-- The `result` field of a verdict object. -/
inductive VResult where
  | deliverable
  | undeliverable
  | invalid_format
  | disposable
  | error
deriving DecidableEq, Repr

/-- The `type` field of a verdict object (`public` / `pro`). -/
inductive EmailType where
  | public
  | pro
deriving DecidableEq, Repr

/-- A verdict object as produced by `validateEmail` or by the per-address
error handling in the route handlers.  The handler-made error verdicts carry
no `type` and no `score` field, hence those fields are `Option`s. -/
structure Verdict where
  email : String
  result : VResult
  type : Option EmailType
  score : Option Nat
  reason : String
  typo : Option String := none
deriving DecidableEq, Repr

/-- JS `String.prototype.toLowerCase` on the character range this system
handles (ASCII): lower-case every character. -/
def jsToLower (s : String) : String :=
  String.mk (s.toList.map Char.toLower)

/-- The whitespace characters of the JS `\s` class handled here (ASCII). -/
def jsWhitespace (c : Char) : Bool :=
  c = ' ' || c = '\t' || c = '\n' || c = '\r' || c = '\x0b' || c = '\x0c'

/-- Model of `validator.trim` with its default character set: strip whitespace from
both ends. -/
def jsTrim (s : String) : String :=
  String.mk (((s.toList.dropWhile jsWhitespace).reverse.dropWhile jsWhitespace).reverse)

/-- JS `String.prototype.split` with a single-character separator. -/
def jsSplit (sep : Char) (s : String) : List String :=
  (s.toList.splitOn sep).map String.mk

/-- JS `String.prototype.includes`: `needle` occurs contiguously in `hay`. -/
def listContains (needle hay : List Char) : Bool :=
  (List.range (hay.length + 1)).any fun i => needle.isPrefixOf (hay.drop i)

/-- Return value of `filterDuplicateEmails`. -/
structure DedupReport where
  uniqueEmails : List String
  duplicates : List String
  totalOriginal : Nat
  totalUnique : Nat
  totalDuplicates : Nat
deriving DecidableEq, Repr

/-- The `forEach` loop of `filterDuplicateEmails`: `seen` is the set of
lower-cased trimmed addresses already kept.  Each address is trimmed
(`validator.trim`), compared lower-cased, and routed to the duplicates list
when its key was seen before, otherwise kept and its key recorded. -/
def filterAux (seen : List String) : List String → List String × List String
  | [] => ([], [])
  | e :: rest =>
    let sanitized := jsTrim e
    let normalized := jsToLower sanitized
    if normalized ∈ seen then
      let p := filterAux seen rest
      (p.1, sanitized :: p.2)
    else
      let p := filterAux (normalized :: seen) rest
      (sanitized :: p.1, p.2)

/-- The function `filterDuplicateEmails` from `src/index.js` (lines 34-56). -/
def filterDuplicateEmails (emails : List String) : DedupReport :=
  let p := filterAux [] emails
  { uniqueEmails := p.1
    duplicates := p.2
    totalOriginal := emails.length
    totalUnique := p.1.length
    totalDuplicates := p.2.length }

/-- Characters matched by the regex class `[^\s@]` (whitespace modelled as the
ASCII whitespace characters `\s` matches). -/
def validEmailChar (c : Char) : Bool :=
  !(c = ' ' || c = '\t' || c = '\n' || c = '\r' || c = '\x0b' || c = '\x0c') && !(c = '@')

/-- The domain part of the regex, `[^\s@]+\.[^\s@]+`, matches exactly the
non-empty all-valid-character strings with a dot strictly inside. -/
def hasInteriorDot (d : List Char) : Bool :=
  (List.range d.length).any fun i =>
    decide (0 < i) && decide (i + 1 < d.length) && (d.getD i ' ' == '.')

/-- Membership in the language of `/^[^\s@]+@[^\s@]+\.[^\s@]+$/`: exactly one
`@`, a non-empty local part, no whitespace, and an interior dot in the
domain part. -/
def emailRegexTest (s : String) : Bool :=
  match s.toList.splitOn '@' with
  | [l, d] => !l.isEmpty && l.all validEmailChar && d.all validEmailChar && hasInteriorDot d
  | _ => false

/-- The function `isEmailFormatValid` from `src/index.js` (lines 142-148): length bound 254
on the whole address, 253 on the `split('@')[1]` part when that part is a
non-empty string (JS truthiness), then the regex test. -/
def isEmailFormatValid (email : String) : Bool :=
  if email.length > 254 then false
  else
    match (jsSplit '@' email).get? 1 with
    | some domain => if !(domain = "") && domain.length > 253 then false else emailRegexTest email
    | none => emailRegexTest email

/-- One entry of the `node-cache` instance `mxCache`: key, stored boolean, and
the instant at which it expires (`stdTTL` seconds after it was set). -/
structure CacheEntry where
  key : String
  value : Bool
  expiresAt : Nat
deriving DecidableEq, Repr

/-- The `stdTTL: 3600` of `mxCache`. -/
def CACHE_TTL : Nat := 3600

/-- Model of `mxCache.get`: a stored entry is returned while the current instant is
before its expiry; an expired entry behaves as a miss. -/
def cacheGet (c : List CacheEntry) (k : String) (now : Nat) : Option Bool :=
  match c.find? (fun e => e.key == k) with
  | some e => if now < e.expiresAt then some e.value else none
  | none => none

/-- Model of `mxCache.set`: stores the value with expiry `now + CACHE_TTL`, replacing
any previous entry for the key. -/
def cacheSet (c : List CacheEntry) (k : String) (v : Bool) (now : Nat) : List CacheEntry :=
  ⟨k, v, now + CACHE_TTL⟩ :: c.filter (fun e => !(e.key == k))

/-- Ghost record of one external DNS lookup. -/
inductive Lookup where
  | mx (domain : String)
  | txt (domain : String)
deriving DecidableEq, Repr

/-- The external DNS collaborator (`dns.promises`).  `resolveMx domain a` is
the outcome of the lookup on attempt number `a`: `none` models a thrown
error, `some n` a resolved record list of length `n`.  `resolveTxt` likewise,
with each TXT record already joined to a single string as the code does. -/
structure Dns where
  resolveMx : String → Nat → Option Nat
  resolveTxt : String → Option (List String)

/-- The retry loop of `hasMXRecord` (lines 156-170).  `fuel` is the number of
attempts remaining, `attempt` the 1-based attempt counter.  Returns the
boolean result, the updated cache, the ghost list of external MX lookups
performed, and the ghost list of backoff delays (ms) slept.  On a resolved
answer the presence of records is cached; when the final attempt throws,
`false` is cached; between failing attempts the code sleeps `1000 * attempt`
milliseconds.  With `fuel = 0` the JS loop would fall through returning
`undefined`; the callers always use `retries = 3` so that path is dead and is
modelled as `false` with no effects. -/
def hasMXLoop (dns : Dns) (domain : String) (retries : Nat) :
    Nat → Nat → List CacheEntry → Nat → Bool × List CacheEntry × List Lookup × List Nat
  | 0, _, cache, _ => (false, cache, [], [])
  | fuel + 1, attempt, cache, now =>
    match dns.resolveMx domain attempt with
    | some n =>
      let hasRecords := decide (0 < n)
      (hasRecords, cacheSet cache ("mx_" ++ domain) hasRecords now, [.mx domain], [])
    | none =>
      if attempt = retries then
        (false, cacheSet cache ("mx_" ++ domain) false now, [.mx domain], [])
      else
        match hasMXLoop dns domain retries fuel (attempt + 1) cache now with
        | (r, c, lks, ds) => (r, c, .mx domain :: lks, 1000 * attempt :: ds)

/-- The function `hasMXRecord` from `src/index.js` (lines 150-171): consult `mxCache` under
key `"mx_" ++ domain` first; on a hit return the cached boolean with no
external traffic, on a miss run the retry loop.  `now` is the wall-clock
instant of the call (the model keeps it fixed across the retries of the call). -/
def hasMXRecord (dns : Dns) (domain : String) (retries : Nat)
    (cache : List CacheEntry) (now : Nat) : Bool × List CacheEntry × List Lookup × List Nat :=
  match cacheGet cache ("mx_" ++ domain) now with
  | some v => (v, cache, [], [])
  | none => hasMXLoop dns domain retries retries 1 cache now

/-- Whether one TXT record (already joined) includes the marker `v=spf1`. -/
def includesSPF (record : String) : Bool :=
  listContains "v=spf1".toList record.toList

/-- The function `checkSPF` from `src/index.js` (lines 173-180): a single uncached
`resolveTxt` call, `false` on a thrown error.  Returns the result and the
ghost lookup trace (always exactly one TXT lookup). -/
def checkSPF (dns : Dns) (domain : String) : Bool × List Lookup :=
  match dns.resolveTxt domain with
  | some records => (records.any includesSPF, [.txt domain])
  | none => (false, [.txt domain])

/-- The constant `DISPOSABLE_DOMAINS` (lines 29-31). -/
def DISPOSABLE_DOMAINS : List String :=
  ["tempmail.com", "mailinator.com", "10minutemail.com", "guerrillamail.com"]

/-- The constant `PUBLIC_DOMAINS` (lines 73-83). -/
def PUBLIC_DOMAINS : List String :=
  ["hotmail.com", "aol.com", "comcast.net", "jcom.home.ne.jp", "yahoo.com",
   "gmail.com", "jcom.zaq.ne.jp", "mail.ru", "outlook.com"]

/-- External library collaborators of `validateEmail`:
`normalizeEmail` models `validator.normalizeEmail` (`none` when the library
returns `false`), `suggest` models `mailcheck.suggest` (the `.full` suggested
address, when any). -/
structure Env where
  dns : Dns
  normalizeEmail : String → Option String
  suggest : String → Option String

/-- The domain extraction of `validateEmail`: element 1 of the split at
`@`, lower-cased when defined (optional chaining). -/
def extractedDomain (s : String) : Option String :=
  ((jsSplit '@' s).get? 1).map jsToLower

/-- JS truthiness of the extracted domain: `undefined` (`none`) and the empty
string both fail the `!domain` test. -/
def domainPresent (s : String) : Bool :=
  match extractedDomain s with
  | some d => !(d = "")
  | none => false

/-- The message of the `TypeError` raised when `validator.normalizeEmail`
returns `false` and the non-string flows into `email.split('@')` inside
`isEmailFormatValid`. -/
def THROW_MSG : String := "email.split is not a function"

/-- The function `validateEmail` from `src/index.js` (lines 182-231).  Returns the verdict
(or the thrown error), the updated MX cache, and the ghost lookup and delay
traces.  When `normalizeEmail` yields `false` the subsequent
`sanitized.split(...)` throws before any check completes.  Otherwise the
checks run in order: format/length (including JS-falsy missing or empty
`split('@')[1]`), disposable-set membership (no DNS), MX via the cache-backed
resolver, then SPF and the advisory typo suggestion. -/
def validateEmail (env : Env) (email : String) (cache : List CacheEntry) (now : Nat) :
    Except String Verdict × List CacheEntry × List Lookup × List Nat :=
  match env.normalizeEmail email with
  | none => (Except.error THROW_MSG, cache, [], [])
  | some sanitized =>
    let formatValid := isEmailFormatValid sanitized
    let domainOpt := extractedDomain sanitized
    let domainTruthy := domainPresent sanitized
    if !formatValid || !domainTruthy then
      (Except.ok { email := sanitized, result := .invalid_format, type := some .public,
                   score := some 0, reason := "Invalid email format or missing domain" },
       cache, [], [])
    else
      let domain := domainOpt.getD ""
      if domain ∈ DISPOSABLE_DOMAINS then
        (Except.ok { email := sanitized, result := .disposable, type := some .public,
                     score := some 0, reason := "Disposable email domain" },
         cache, [], [])
      else
        let etype : EmailType := if domain ∈ PUBLIC_DOMAINS then .public else .pro
        let mxRun := hasMXRecord env.dns domain 3 cache now
        if !mxRun.1 then
          (Except.ok { email := sanitized, result := .undeliverable, type := some etype,
                       score := some 10, reason := "Domain has no MX records" },
           mxRun.2.1, mxRun.2.2.1, mxRun.2.2.2)
        else
          let spfRun := checkSPF env.dns domain
          let score := if spfRun.1 then 95 else 80
          (Except.ok { email := sanitized, result := .deliverable, type := some etype,
                       score := some score,
                       reason := "Email is valid, domain has MX records" ++
                         (if spfRun.1 then " and SPF" else ""),
                       typo := env.suggest sanitized },
           mxRun.2.1, mxRun.2.2.1 ++ spfRun.2, mxRun.2.2.2)

/-- The chunk loop shape shared by both handlers:
`for (let i = 0; i < list.length; i += limit) { chunk = list.slice(i, i + limit); ... }`.
With `limit = 0` the JS loop would never advance; both call sites use the
constants 100 and 50, so that case is modelled as producing no chunks.
`fuel` bounds the number of loop iterations; `chunksOf` starts it at the
length of the list, which never runs out since each iteration drops at least one
element. -/
def chunksGo {α : Type} (limit : Nat) : Nat → List α → List (List α)
  | _, [] => []
  | 0, _ :: _ => []
  | fuel + 1, e :: rest =>
    if limit = 0 then []
    else ((e :: rest).take limit) :: chunksGo limit fuel ((e :: rest).drop limit)

def chunksOf {α : Type} (limit : Nat) (l : List α) : List (List α) :=
  chunksGo limit l.length l

/-- One settled outcome of a `validateEmail` promise, abstracted: a
fulfilled verdict or a rejection message.  The function is keyed by the
global position of the address in the processed list so that two equal addresses
may settle differently (the shared cache makes outcomes timing-dependent). -/
def Outcome : Type := Nat → String → Except String Verdict

/-- The `chunkResults.map` of both handlers, for one settled outcome: a
fulfilled promise contributes its verdict, a rejected one an error verdict
with the message of the rejection reason (or the fallback text when that
message is empty) and no `type`/`score` field. -/
def settleOne (r : Except String Verdict) (email : String) : Verdict :=
  match r with
  | .ok v => v
  | .error msg =>
    { email := email, result := .error, type := none, score := none,
      reason := if msg = "" then "Validation failed" else msg }

/-- Settling a list of addresses starting at global position `base`. -/
def settleList (oc : Outcome) : Nat → List String → List Verdict
  | _, [] => []
  | base, e :: rest => settleOne (oc base e) e :: settleList oc (base + 1) rest

/-- The sequential chunk loop of the batch handler: each chunk is settled as a
whole and appended to `results` before the next chunk starts. -/
def processChunks (oc : Outcome) : Nat → List (List String) → List Verdict
  | _, [] => []
  | base, c :: cs => settleList oc base c ++ processChunks oc (base + c.length) cs

/-- The `summary` object of the batch response (lines 280-285): counts for
`deliverable`, `undeliverable`, `invalid_format` and `error` — the code builds
no count for `disposable`. -/
structure Summary where
  deliverable : Nat
  undeliverable : Nat
  invalid_format : Nat
  error : Nat
deriving DecidableEq, Repr

def mkSummary (results : List Verdict) : Summary :=
  { deliverable := (results.filter fun r => r.result == .deliverable).length
    undeliverable := (results.filter fun r => r.result == .undeliverable).length
    invalid_format := (results.filter fun r => r.result == .invalid_format).length
    error := (results.filter fun r => r.result == .error).length }

/-- The JSON body of a successful `/validate-batch` response. -/
structure BatchResponse where
  total : Nat
  results : List Verdict
  summary : Summary
  duplicateFilter : Option DedupReport
deriving DecidableEq, Repr

/-- The `CONCURRENCY_LIMIT` of the batch handler (line 256). -/
def BATCH_CONCURRENCY_LIMIT : Nat := 100

/-- The `CONCURRENCY_LIMIT` of the stream handler (line 325). -/
def STREAM_CONCURRENCY_LIMIT : Nat := 50

/-- The list the handlers actually validate: every address is passed through
`validator.escape` (modelled as the parameter `escape`), then deduplicated
when `filterDuplicates` is on. -/
def emailsToProcess (escape : String → String) (emails : List String)
    (filterDuplicates : Bool) : List String :=
  let escaped := emails.map escape
  if filterDuplicates then (filterDuplicateEmails escaped).uniqueEmails else escaped

/-- The `/validate-batch` handler (lines 234-295).  Bounds are checked before
any escaping, deduplication or validation; the accepted path chunks the
processed list by 100, settles the chunks sequentially and assembles the
response.  The `catch` of the handler produces a 500 only if something outside
the per-address settling throws, which the model has no source of, so the
accepted path is total. -/
def validateBatchHandler (escape : String → String) (oc : Outcome)
    (emails : List String) (filterDuplicates : Bool) : Except String BatchResponse :=
  if emails.length = 0 then
    .error "emails must be an array of email strings"
  else if emails.length > 10000 then
    .error "Maximum 10000 emails per request allowed"
  else
    let escaped := emails.map escape
    let duplicateInfo := if filterDuplicates then some (filterDuplicateEmails escaped) else none
    let toProcess := if filterDuplicates then (filterDuplicateEmails escaped).uniqueEmails
                     else escaped
    let results := processChunks oc 0 (chunksOf BATCH_CONCURRENCY_LIMIT toProcess)
    .ok { total := results.length
          results := results
          summary := mkSummary results
          duplicateFilter := duplicateInfo }

/-- One server-sent event written by the stream handler. -/
inductive StreamEvent where
  | duplicateInfo (report : DedupReport)
  | data (v : Verdict)
  | errorData (details : String)
  | done
deriving DecidableEq, Repr

/-- The chunk loop of the stream handler inside its `try` block.  `fault i`
models an exception thrown while processing chunk `i` (e.g. a failed
`res.write`): the `catch` then writes a single error data event and ends the
stream — the `done` event is only written when the loop finishes normally. -/
def runStream (oc : Outcome) (fault : Nat → Option String) :
    Nat → Nat → List (List String) → List StreamEvent
  | _, _, [] => [.done]
  | chunkIdx, base, c :: cs =>
    match fault chunkIdx with
    | some msg => [.errorData msg]
    | none => (settleList oc base c).map .data ++
        runStream oc fault (chunkIdx + 1) (base + c.length) cs

/-- The `/validate-stream` handler (lines 298-362): bounds checks before any
work, then the optional leading `duplicate_info` event, then the chunk loop
(chunk size 50) with the terminal `done` event, or the `catch` error event. -/
def validateStreamHandler (escape : String → String) (oc : Outcome)
    (fault : Nat → Option String) (emails : List String) (filterDuplicates : Bool) :
    Except String (List StreamEvent) :=
  if emails.length = 0 then
    .error "emails must be a comma-separated array via query string"
  else if emails.length > 1000 then
    .error "Maximum 1000 emails per streaming request. Use POST /validate-batch for larger batches."
  else
    let escaped := emails.map escape
    let lead := if filterDuplicates
      then [StreamEvent.duplicateInfo (filterDuplicateEmails escaped)] else []
    let toProcess := if filterDuplicates then (filterDuplicateEmails escaped).uniqueEmails
                     else escaped
    .ok (lead ++ runStream oc fault 0 0 (chunksOf STREAM_CONCURRENCY_LIMIT toProcess))

/-- Scheduler state of the chunk loop of one request: windows not yet started (in
order), the validations currently in flight, and the addresses whose
validations have settled and been collected. -/
structure PipelineState where
  pending : List (List String)
  inFlight : List String
  collected : List String
deriving Repr

/-- Atomic scheduling steps of the chunk loop.  `startWindow` fires the whole
next window at once (`chunk.map(email => validateEmail(email))`) and — because
the loop `await`s `Promise.allSettled` before its next iteration — is only
enabled once every validation of the previous window has settled
(`inFlight = []`).  `settleOne` settles any single in-flight validation. -/
inductive PipelineStep : PipelineState → PipelineState → Prop where
  | startWindow (w : List String) (rest : List (List String)) (done : List String) :
      PipelineStep ⟨w :: rest, [], done⟩ ⟨rest, w, done⟩
  | settleOne (pending : List (List String)) (pre post done : List String) (x : String) :
      PipelineStep ⟨pending, pre ++ x :: post, done⟩ ⟨pending, pre ++ post, x :: done⟩

/-- States the chunk loop can reach on a request whose processed list is
`emails`, windowed with chunk size `limit`. -/
def PipelineReachable (limit : Nat) (emails : List String) (s : PipelineState) : Prop :=
  Relation.ReflTransGen PipelineStep ⟨chunksOf limit emails, [], []⟩ s

/-! Concrete collaborator instances used by witnesses and counterexamples. -/

/-- A DNS collaborator that answers every MX query with one record and every
TXT query with an SPF record. -/
def dnsOkW : Dns := { resolveMx := fun _ _ => some 1, resolveTxt := fun _ => some ["v=spf1 a"] }

/-- A DNS collaborator whose every query throws. -/
def dnsFailW : Dns := { resolveMx := fun _ _ => none, resolveTxt := fun _ => none }

/-- A model of the branch of the `normalizeEmail` of the validator library that
this development exercises concretely: the address is split at `@`; for the
gmail domains the default options strip everything from the first `+` and all
dots from the local part and the library returns `false` when nothing is
left; other addresses are lower-cased unchanged. -/
def normalizeModel (email : String) : Option String :=
  let parts := jsSplit '@' email
  let domain := jsToLower (parts.getLast?.getD "")
  let user := String.mk ((parts.dropLast.map String.toList).intersperse ['@']).flatten
  if domain = "gmail.com" ∨ domain = "googlemail.com" then
    let noSub := (jsSplit '+' user).headD ""
    let noDots := jsToLower (String.mk (noSub.toList.filter fun c => !(c = '.')))
    if noDots = "" then none else some (noDots ++ "@gmail.com")
  else
    some (jsToLower user ++ "@" ++ domain)

/-- Collaborators for witnesses: well-behaved DNS, the `normalizeModel`
library model, no typo suggestions. -/
def envW : Env := { dns := dnsOkW, normalizeEmail := normalizeModel, suggest := fun _ => none }

/-- An outcome function induced by running `validateEmail` itself on a fresh
cache (exact for single-address requests). -/
def ocW : Outcome := fun _ e => (validateEmail envW e [] 0).1

/-- An outcome function whose first position rejects (the validation of one
address throwing) while every other position settles normally. -/
def ocErrW : Outcome := fun k e => if k = 0 then .error "boom" else (validateEmail envW e [] 0).1

/-- A fault oracle making the processing of the first chunk throw mid-stream. -/
def faultW : Nat → Option String := fun _ => some "boom"

/-- A fault oracle under which no chunk processing ever throws. -/
def noFaultW : Nat → Option String := fun _ => none

/-- Whether a stream event is a per-address verdict (`data:`) event. -/
def StreamEvent.isData : StreamEvent → Bool
  | .data _ => true
  | _ => false

/-- The batch response for the single disposable address
`"x@tempmail.com"` under `ocW`. -/
def respC8 : BatchResponse :=
  { total := 1
    results := [{ email := "x@tempmail.com", result := .disposable, type := some .public,
                  score := some 0, reason := "Disposable email domain" }]
    summary := { deliverable := 0, undeliverable := 0, invalid_format := 0, error := 0 }
    duplicateFilter := none }

/-- The event list of the faulting one-chunk stream request. -/
def evsC9 : List StreamEvent := [.errorData "boom"]

/-- The event list of the fault-free one-address stream request under `ocW`. -/
def evsOkC9 : List StreamEvent :=
  [.data { email := "a@b.co", result := .deliverable, type := some .pro, score := some 95,
           reason := "Email is valid, domain has MX records and SPF" },
   .done]

/-! ## Helper lemmas about the chunk loop -/

theorem chunksGo_congr {α : Type} (limit : Nat) (hl : 0 < limit) :
    ∀ (f₁ : Nat) (l : List α) (f₂ : Nat), l.length ≤ f₁ → l.length ≤ f₂ →
      chunksGo limit f₁ l = chunksGo limit f₂ l := by
  intro f₁
  induction f₁ with
  | zero =>
    intro l f₂ h1 _
    have hnil : l = [] := List.eq_nil_of_length_eq_zero (Nat.le_zero.mp h1)
    subst hnil
    cases f₂ <;> rfl
  | succ g ih =>
    intro l f₂ h1 h2
    cases l with
    | nil => cases f₂ <;> rfl
    | cons e rest =>
      cases f₂ with
      | zero => simp at h2
      | succ h =>
        show chunksGo limit (g + 1) (e :: rest) = chunksGo limit (h + 1) (e :: rest)
        unfold chunksGo
        rw [if_neg (Nat.pos_iff_ne_zero.mp hl), if_neg (Nat.pos_iff_ne_zero.mp hl)]
        congr 1
        apply ih
        · rw [List.length_drop]
          simp only [List.length_cons] at h1 ⊢
          omega
        · rw [List.length_drop]
          simp only [List.length_cons] at h2 ⊢
          omega

theorem chunksOf_nil {α : Type} (limit : Nat) : chunksOf limit ([] : List α) = [] := rfl

theorem chunksOf_cons {α : Type} (limit : Nat) (hl : 0 < limit) (e : α) (rest : List α) :
    chunksOf limit (e :: rest) =
      ((e :: rest).take limit) :: chunksOf limit ((e :: rest).drop limit) := by
  show chunksGo limit (rest.length + 1) (e :: rest) = _
  unfold chunksGo
  rw [if_neg (Nat.pos_iff_ne_zero.mp hl)]
  congr 1
  apply chunksGo_congr limit hl
  · rw [List.length_drop]; simp only [List.length_cons]; omega
  · exact le_rfl

theorem chunksOf_flatten_aux {α : Type} (limit : Nat) (hl : 0 < limit) :
    ∀ (n : Nat) (l : List α), l.length ≤ n → (chunksOf limit l).flatten = l := by
  intro n
  induction n with
  | zero =>
    intro l h
    have hnil : l = [] := List.eq_nil_of_length_eq_zero (Nat.le_zero.mp h)
    subst hnil; rfl
  | succ n ih =>
    intro l h
    cases l with
    | nil => rfl
    | cons e rest =>
      rw [chunksOf_cons limit hl, List.flatten_cons, ih _ ?_, List.take_append_drop]
      rw [List.length_drop]
      simp only [List.length_cons] at h ⊢
      omega

/-- The windows are consecutive slices of the processed list: flattening them
restores it. -/
theorem chunksOf_flatten {α : Type} (limit : Nat) (hl : 0 < limit) (l : List α) :
    (chunksOf limit l).flatten = l :=
  chunksOf_flatten_aux limit hl l.length l le_rfl

theorem chunksOf_length_le_aux {α : Type} (limit : Nat) (hl : 0 < limit) :
    ∀ (n : Nat) (l : List α), l.length ≤ n →
      ∀ c ∈ chunksOf limit l, c.length ≤ limit := by
  intro n
  induction n with
  | zero =>
    intro l h c hc
    have hnil : l = [] := List.eq_nil_of_length_eq_zero (Nat.le_zero.mp h)
    subst hnil; simp [chunksOf_nil] at hc
  | succ n ih =>
    intro l h c hc
    cases l with
    | nil => simp [chunksOf_nil] at hc
    | cons e rest =>
      rw [chunksOf_cons limit hl] at hc
      rcases List.mem_cons.mp hc with hc | hc
      · subst hc; exact List.length_take_le limit (e :: rest)
      · refine ih _ ?_ c hc
        rw [List.length_drop]
        simp only [List.length_cons] at h ⊢
        omega

/-- Every window holds at most `limit` addresses. -/
theorem chunksOf_length_le {α : Type} (limit : Nat) (hl : 0 < limit) (l : List α) :
    ∀ c ∈ chunksOf limit l, c.length ≤ limit :=
  chunksOf_length_le_aux limit hl l.length l le_rfl

theorem chunksOf_eq_nil_iff {α : Type} (limit : Nat) (hl : 0 < limit) (l : List α) :
    chunksOf limit l = [] ↔ l = [] := by
  cases l with
  | nil => simp [chunksOf_nil]
  | cons e rest => rw [chunksOf_cons limit hl]; simp

theorem chunksOf_full_aux {α : Type} (limit : Nat) (hl : 0 < limit) :
    ∀ (n : Nat) (l : List α), l.length ≤ n →
      ∀ i, i + 1 < (chunksOf limit l).length →
        ∃ w, (chunksOf limit l)[i]? = some w ∧ w.length = limit := by
  intro n
  induction n with
  | zero =>
    intro l h i hi
    have hnil : l = [] := List.eq_nil_of_length_eq_zero (Nat.le_zero.mp h)
    subst hnil; simp [chunksOf_nil] at hi
  | succ n ih =>
    intro l h i hi
    cases l with
    | nil => simp [chunksOf_nil] at hi
    | cons e rest =>
      rw [chunksOf_cons limit hl] at hi ⊢
      cases i with
      | zero =>
        refine ⟨(e :: rest).take limit, by simp, ?_⟩
        simp only [List.length_cons] at hi
        have hne : chunksOf limit ((e :: rest).drop limit) ≠ [] := by
          intro hcon
          rw [hcon] at hi
          simp at hi
        have hdrop : (e :: rest).drop limit ≠ [] :=
          fun hcon => hne (by rw [hcon, chunksOf_nil])
        have hlen : limit < (e :: rest).length := by
          by_contra hcon
          exact hdrop (List.drop_eq_nil_of_le (Nat.le_of_not_lt hcon))
        rw [List.length_take]
        omega
      | succ i =>
        simp only [List.length_cons, Nat.add_lt_add_iff_right] at hi
        rw [List.getElem?_cons_succ]
        refine ih _ ?_ i hi
        rw [List.length_drop]
        simp only [List.length_cons] at h ⊢
        omega

/-- Every window except possibly the last holds exactly `limit` addresses
(the windows are fixed-size). -/
theorem chunksOf_full {α : Type} (limit : Nat) (hl : 0 < limit) (l : List α) :
    ∀ i, i + 1 < (chunksOf limit l).length →
      ∃ w, (chunksOf limit l)[i]? = some w ∧ w.length = limit :=
  chunksOf_full_aux limit hl l.length l le_rfl

/-! ## Helper lemmas about settling outcomes -/

theorem settleList_length (oc : Outcome) :
    ∀ (l : List String) (base : Nat), (settleList oc base l).length = l.length := by
  intro l
  induction l with
  | nil => intro base; rfl
  | cons e rest ih => intro base; simp [settleList, ih]

theorem settleList_getElem? (oc : Outcome) :
    ∀ (l : List String) (base k : Nat),
      (settleList oc base l)[k]? = (l[k]?).map fun e => settleOne (oc (base + k) e) e := by
  intro l
  induction l with
  | nil => intro base k; simp [settleList]
  | cons e rest ih =>
    intro base k
    cases k with
    | zero => simp [settleList]
    | succ k =>
      simp only [settleList, List.getElem?_cons_succ]
      rw [ih (base + 1) k]
      have h : base + 1 + k = base + (k + 1) := by omega
      rw [h]

theorem settleList_append (oc : Outcome) :
    ∀ (a : List String) (base : Nat) (b : List String),
      settleList oc base (a ++ b) = settleList oc base a ++ settleList oc (base + a.length) b := by
  intro a
  induction a with
  | nil => intro base b; simp [settleList]
  | cons e rest ih =>
    intro base b
    have h : base + 1 + rest.length = base + (rest.length + 1) := by omega
    show settleOne (oc base e) e :: settleList oc (base + 1) (rest ++ b) = _
    rw [ih (base + 1) b, h]
    simp [settleList]

/-- The sequential chunk loop settles exactly the concatenation of its
chunks, in order. -/
theorem processChunks_eq_settleList (oc : Outcome) :
    ∀ (cs : List (List String)) (base : Nat),
      processChunks oc base cs = settleList oc base cs.flatten := by
  intro cs
  induction cs with
  | nil => intro base; rfl
  | cons c rest ih =>
    intro base
    simp only [processChunks, List.flatten_cons, settleList_append, ih]

/-! ## Helper lemmas about the handlers -/

theorem validateBatchHandler_accepted (escape : String → String) (oc : Outcome)
    (emails : List String) (fd : Bool) (hne : emails ≠ []) (hlen : emails.length ≤ 10000) :
    validateBatchHandler escape oc emails fd =
      .ok { total := (settleList oc 0 (emailsToProcess escape emails fd)).length
            results := settleList oc 0 (emailsToProcess escape emails fd)
            summary := mkSummary (settleList oc 0 (emailsToProcess escape emails fd))
            duplicateFilter :=
              if fd then some (filterDuplicateEmails (emails.map escape)) else none } := by
  have h0 : ¬ emails.length = 0 := fun h => hne (List.eq_nil_of_length_eq_zero h)
  have h1 : ¬ emails.length > 10000 := Nat.not_lt.mpr hlen
  have hres : processChunks oc 0 (chunksOf BATCH_CONCURRENCY_LIMIT (emailsToProcess escape emails fd)) =
      settleList oc 0 (emailsToProcess escape emails fd) := by
    rw [processChunks_eq_settleList, chunksOf_flatten _ (by decide)]
  unfold validateBatchHandler
  rw [if_neg h0, if_neg h1]
  unfold emailsToProcess at hres
  simp only [hres]
  rfl

theorem validateStreamHandler_accepted (escape : String → String) (oc : Outcome)
    (fault : Nat → Option String) (emails : List String) (fd : Bool)
    (hne : emails ≠ []) (hlen : emails.length ≤ 1000) :
    validateStreamHandler escape oc fault emails fd =
      .ok ((if fd then [StreamEvent.duplicateInfo (filterDuplicateEmails (emails.map escape))]
            else []) ++
        runStream oc fault 0 0 (chunksOf STREAM_CONCURRENCY_LIMIT (emailsToProcess escape emails fd))) := by
  have h0 : ¬ emails.length = 0 := fun h => hne (List.eq_nil_of_length_eq_zero h)
  have h1 : ¬ emails.length > 1000 := Nat.not_lt.mpr hlen
  unfold validateStreamHandler
  rw [if_neg h0, if_neg h1]
  unfold emailsToProcess
  rfl

theorem runStream_ne_nil (oc : Outcome) (fault : Nat → Option String) :
    ∀ (cs : List (List String)) (chunkIdx base : Nat),
      runStream oc fault chunkIdx base cs ≠ [] := by
  intro cs chunkIdx base
  cases cs with
  | nil => simp [runStream]
  | cons c rest =>
    unfold runStream
    cases hf : fault chunkIdx with
    | some msg => simp
    | none =>
      simp only []
      intro hcon
      rcases List.append_eq_nil.mp hcon with ⟨_, h2⟩
      exact runStream_ne_nil oc fault rest (chunkIdx + 1) (base + c.length) h2

/-- When no internal fault fires, the stream loop emits one data event per
address of every chunk, in order, then the terminal done event. -/
theorem runStream_no_fault (oc : Outcome) (fault : Nat → Option String)
    (hf : ∀ i, fault i = none) :
    ∀ (cs : List (List String)) (chunkIdx base : Nat),
      runStream oc fault chunkIdx base cs =
        (settleList oc base cs.flatten).map .data ++ [.done] := by
  intro cs
  induction cs with
  | nil => intro chunkIdx base; simp [runStream, settleList]
  | cons c rest ih =>
    intro chunkIdx base
    unfold runStream
    rw [hf chunkIdx]
    simp only [List.flatten_cons, settleList_append, List.map_append,
      ih (chunkIdx + 1) (base + c.length), List.append_assoc]

/-- The last event of the stream loop is either the done marker or the error data
event of the `catch` path. -/
theorem runStream_last (oc : Outcome) (fault : Nat → Option String) :
    ∀ (cs : List (List String)) (chunkIdx base : Nat),
      (runStream oc fault chunkIdx base cs).getLast? = some .done ∨
        ∃ m, (runStream oc fault chunkIdx base cs).getLast? = some (.errorData m) := by
  intro cs
  induction cs with
  | nil => intro chunkIdx base; left; rfl
  | cons c rest ih =>
    intro chunkIdx base
    cases hf : fault chunkIdx with
    | some msg =>
      right
      refine ⟨msg, ?_⟩
      simp [runStream, hf]
    | none =>
      have hred : runStream oc fault chunkIdx base (c :: rest) =
          (settleList oc base c).map .data ++
            runStream oc fault (chunkIdx + 1) (base + c.length) rest := by
        simp [runStream, hf]
      rw [hred,
        List.getLast?_append_of_ne_nil _
          (runStream_ne_nil oc fault rest (chunkIdx + 1) (base + c.length))]
      exact ih (chunkIdx + 1) (base + c.length)

/-- The four summary counters plus the number of disposable verdicts account
for every verdict: the `summary` object has no disposable counter. -/
theorem mkSummary_sum (results : List Verdict) :
    (mkSummary results).deliverable + (mkSummary results).undeliverable +
      (mkSummary results).invalid_format + (mkSummary results).error +
      (results.filter fun r => r.result == .disposable).length = results.length := by
  induction results with
  | nil => rfl
  | cons v rest ih =>
    simp only [mkSummary, List.filter_cons] at ih ⊢
    cases hv : v.result <;> simp [hv] <;> omega

/-! ## Helper lemmas about the deduplicator -/

/-- Every trimmed input address lands in exactly one of the two output lists:
together (as multisets) they are the trimmed input. -/
theorem filterAux_perm :
    ∀ (l : List String) (seen : List String),
      List.Perm ((filterAux seen l).1 ++ (filterAux seen l).2) (l.map jsTrim) := by
  intro l
  induction l with
  | nil => intro seen; simp [filterAux]
  | cons e rest ih =>
    intro seen
    simp only [filterAux, List.map_cons]
    by_cases hm : jsToLower (jsTrim e) ∈ seen
    · rw [if_pos hm]
      exact (List.perm_middle).trans ((ih seen).cons (jsTrim e))
    · rw [if_neg hm]
      exact (ih (jsToLower (jsTrim e) :: seen)).cons (jsTrim e)

theorem filterAux_unique_sublist :
    ∀ (l : List String) (seen : List String),
      List.Sublist (filterAux seen l).1 (l.map jsTrim) := by
  intro l
  induction l with
  | nil => intro seen; simp [filterAux]
  | cons e rest ih =>
    intro seen
    simp only [filterAux, List.map_cons]
    by_cases hm : jsToLower (jsTrim e) ∈ seen
    · rw [if_pos hm]; exact (ih seen).cons (jsTrim e)
    · rw [if_neg hm]; exact (ih _).cons₂ (jsTrim e)

theorem filterAux_dups_sublist :
    ∀ (l : List String) (seen : List String),
      List.Sublist (filterAux seen l).2 (l.map jsTrim) := by
  intro l
  induction l with
  | nil => intro seen; simp [filterAux]
  | cons e rest ih =>
    intro seen
    simp only [filterAux, List.map_cons]
    by_cases hm : jsToLower (jsTrim e) ∈ seen
    · rw [if_pos hm]; exact (ih seen).cons₂ (jsTrim e)
    · rw [if_neg hm]; exact (ih _).cons (jsTrim e)

/-- The kept addresses have pairwise distinct lower-cased keys, all of them
outside the initial `seen` set. -/
theorem filterAux_keys_nodup :
    ∀ (l : List String) (seen : List String), seen.Nodup →
      ((filterAux seen l).1.map jsToLower ++ seen).Nodup := by
  intro l
  induction l with
  | nil => intro seen hs; simpa [filterAux] using hs
  | cons e rest ih =>
    intro seen hs
    simp only [filterAux]
    by_cases hm : jsToLower (jsTrim e) ∈ seen
    · rw [if_pos hm]; exact ih seen hs
    · rw [if_neg hm]
      have hih := ih (jsToLower (jsTrim e) :: seen) (List.nodup_cons.mpr ⟨hm, hs⟩)
      have hperm : List.Perm
          ((filterAux (jsToLower (jsTrim e) :: seen) rest).1.map jsToLower ++
            (jsToLower (jsTrim e) :: seen))
          (jsToLower (jsTrim e) ::
            ((filterAux (jsToLower (jsTrim e) :: seen) rest).1.map jsToLower ++ seen)) :=
        List.perm_middle
      simpa using hperm.nodup_iff.mp hih

/-- Every address routed to the duplicates list had its key either in the
initial `seen` set or on a kept address. -/
theorem filterAux_dups_key_seen :
    ∀ (l : List String) (seen : List String) (d : String), d ∈ (filterAux seen l).2 →
      jsToLower d ∈ seen ∨ jsToLower d ∈ (filterAux seen l).1.map jsToLower := by
  intro l
  induction l with
  | nil => intro seen d hd; simp [filterAux] at hd
  | cons e rest ih =>
    intro seen d hd
    simp only [filterAux] at hd ⊢
    by_cases hm : jsToLower (jsTrim e) ∈ seen
    · rw [if_pos hm] at hd ⊢
      rcases List.mem_cons.mp hd with hd | hd
      · subst hd; exact Or.inl hm
      · exact ih seen d hd
    · rw [if_neg hm] at hd ⊢
      rcases ih _ d hd with hseen | hkept
      · rcases List.mem_cons.mp hseen with hkey | hkey
        · right; simp [hkey]
        · exact Or.inl hkey
      · right; simp only [List.map_cons, List.mem_cons]; exact Or.inr hkept

/-! ## Helper lemmas about the cache-backed resolver -/

theorem cacheGet_cacheSet_self (c : List CacheEntry) (k : String) (v : Bool) (now now' : Nat)
    (h : now' < now + CACHE_TTL) : cacheGet (cacheSet c k v now) k now' = some v := by
  unfold cacheGet cacheSet
  rw [List.find?_cons_of_pos _ (by simp)]
  simp [h]

/-- A fresh cached entry short-circuits the whole MX check: no lookup, no
delay, no cache change. -/
theorem hasMXRecord_cache_hit (dns : Dns) (domain : String) (retries : Nat)
    (cache : List CacheEntry) (now : Nat) (v : Bool)
    (h : cacheGet cache ("mx_" ++ domain) now = some v) :
    hasMXRecord dns domain retries cache now = (v, cache, [], []) := by
  unfold hasMXRecord
  rw [h]

/-- Every exit of the retry loop stores its boolean result in the cache. -/
theorem hasMXLoop_cache (dns : Dns) (domain : String) (retries : Nat) :
    ∀ (fuel attempt : Nat) (cache : List CacheEntry) (now : Nat),
      attempt + fuel = retries + 1 → 0 < fuel →
      (hasMXLoop dns domain retries fuel attempt cache now).2.1 =
        cacheSet cache ("mx_" ++ domain)
          (hasMXLoop dns domain retries fuel attempt cache now).1 now := by
  intro fuel
  induction fuel with
  | zero => intro attempt cache now _ h0; exact absurd h0 (by omega)
  | succ f ih =>
    intro attempt cache now hinv _
    unfold hasMXLoop
    cases hmx : dns.resolveMx domain attempt with
    | some n => simp
    | none =>
      by_cases hat : attempt = retries
      · rw [if_pos hat]
      · rw [if_neg hat]
        have hf : 0 < f := by omega
        have hstep := ih (attempt + 1) cache now (by omega) hf
        rcases hrec : hasMXLoop dns domain retries f (attempt + 1) cache now with ⟨r, c, lks, ds⟩
        rw [hrec] at hstep
        simp only [hrec]
        simpa using hstep

theorem hasMXRecord_caches (dns : Dns) (domain : String) (cache : List CacheEntry) (now : Nat)
    (hmiss : cacheGet cache ("mx_" ++ domain) now = none) :
    (hasMXRecord dns domain 3 cache now).2.1 =
      cacheSet cache ("mx_" ++ domain) (hasMXRecord dns domain 3 cache now).1 now := by
  unfold hasMXRecord
  rw [hmiss]
  exact hasMXLoop_cache dns domain 3 3 1 cache now (by omega) (by omega)

/-- All three attempts throwing: three external lookups, backoff sleeps of
1000·1 and 1000·2 ms, `false` cached and returned. -/
theorem hasMXRecord_all_fail (dns : Dns) (domain : String) (cache : List CacheEntry) (now : Nat)
    (hmiss : cacheGet cache ("mx_" ++ domain) now = none)
    (h1 : dns.resolveMx domain 1 = none) (h2 : dns.resolveMx domain 2 = none)
    (h3 : dns.resolveMx domain 3 = none) :
    hasMXRecord dns domain 3 cache now =
      (false, cacheSet cache ("mx_" ++ domain) false now,
        [.mx domain, .mx domain, .mx domain], [1000 * 1, 1000 * 2]) := by
  simp [hasMXRecord, hasMXLoop, hmiss, h1, h2, h3]

/-- An authoritative empty MX answer: one lookup, `false` cached and
returned — the same boolean and the same cached value as total failure. -/
theorem hasMXRecord_empty_answer (dns : Dns) (domain : String) (cache : List CacheEntry)
    (now : Nat) (hmiss : cacheGet cache ("mx_" ++ domain) now = none)
    (h1 : dns.resolveMx domain 1 = some 0) :
    hasMXRecord dns domain 3 cache now =
      (false, cacheSet cache ("mx_" ++ domain) false now, [.mx domain], []) := by
  simp [hasMXRecord, hasMXLoop, hmiss, h1]

/-! ## Helper lemmas about the pipeline scheduler -/

theorem pipelineStep_invariant {limit : Nat} {s t : PipelineState}
    (hstep : PipelineStep s t)
    (hs : s.inFlight.length ≤ limit ∧ ∀ w ∈ s.pending, w.length ≤ limit) :
    t.inFlight.length ≤ limit ∧ ∀ w ∈ t.pending, w.length ≤ limit := by
  cases hstep with
  | startWindow w rest done =>
    exact ⟨hs.2 w (by simp), fun w' hw' => hs.2 w' (by simp [hw'])⟩
  | settleOne pending pre post done x =>
    refine ⟨?_, hs.2⟩
    have h := hs.1
    simp only [List.length_append, List.length_cons] at h ⊢
    omega

/-- Invariant of every reachable scheduler state: in-flight validations never
exceed the window size, and every unstarted window fits it too. -/
theorem pipelineReachable_invariant {limit : Nat} (hl : 0 < limit) (emails : List String)
    (s : PipelineState) (h : PipelineReachable limit emails s) :
    s.inFlight.length ≤ limit ∧ ∀ w ∈ s.pending, w.length ≤ limit := by
  induction h with
  | refl => exact ⟨by simp, fun w hw => chunksOf_length_le limit hl emails w hw⟩
  | tail _ hstep ih => exact pipelineStep_invariant hstep ih

/-! ## Claims -/

/-- C1: for every accepted request, the pipeline partitions the address list
into consecutive fixed-size windows (100 in batch mode, 50 in stream mode):
the windows flatten back to the list, every window is bounded by the limit,
every non-final window is exactly the limit, and in the sequential scheduler
(a window starts only once the previous one is fully collected) the number of
in-flight validations never exceeds the window size in any reachable state. -/
theorem C1_sequential_windows_bound_concurrency (emails : List String) :
    ((chunksOf BATCH_CONCURRENCY_LIMIT emails).flatten = emails ∧
      (∀ w ∈ chunksOf BATCH_CONCURRENCY_LIMIT emails, w.length ≤ BATCH_CONCURRENCY_LIMIT) ∧
      (∀ i, i + 1 < (chunksOf BATCH_CONCURRENCY_LIMIT emails).length →
        ∃ w, (chunksOf BATCH_CONCURRENCY_LIMIT emails)[i]? = some w ∧
          w.length = BATCH_CONCURRENCY_LIMIT) ∧
      ∀ s, PipelineReachable BATCH_CONCURRENCY_LIMIT emails s →
        s.inFlight.length ≤ BATCH_CONCURRENCY_LIMIT) ∧
    ((chunksOf STREAM_CONCURRENCY_LIMIT emails).flatten = emails ∧
      (∀ w ∈ chunksOf STREAM_CONCURRENCY_LIMIT emails, w.length ≤ STREAM_CONCURRENCY_LIMIT) ∧
      (∀ i, i + 1 < (chunksOf STREAM_CONCURRENCY_LIMIT emails).length →
        ∃ w, (chunksOf STREAM_CONCURRENCY_LIMIT emails)[i]? = some w ∧
          w.length = STREAM_CONCURRENCY_LIMIT) ∧
      ∀ s, PipelineReachable STREAM_CONCURRENCY_LIMIT emails s →
        s.inFlight.length ≤ STREAM_CONCURRENCY_LIMIT) := by
  refine ⟨⟨chunksOf_flatten _ (by decide) emails, chunksOf_length_le _ (by decide) emails,
      chunksOf_full _ (by decide) emails,
      fun s hs => (pipelineReachable_invariant (by decide) emails s hs).1⟩,
    chunksOf_flatten _ (by decide) emails, chunksOf_length_le _ (by decide) emails,
      chunksOf_full _ (by decide) emails,
      fun s hs => (pipelineReachable_invariant (by decide) emails s hs).1⟩

/-- Witness for C1 at a concrete request: the state with a whole window in
flight is reachable and respects the bound. -/
theorem C1_sequential_windows_bound_concurrency_witness :
    PipelineReachable BATCH_CONCURRENCY_LIMIT ["a@b.co", "c@d.co"]
      ⟨[], ["a@b.co", "c@d.co"], []⟩ ∧
    (PipelineState.mk [] ["a@b.co", "c@d.co"] []).inFlight.length ≤ BATCH_CONCURRENCY_LIMIT := by
  have hch : chunksOf BATCH_CONCURRENCY_LIMIT ["a@b.co", "c@d.co"] = [["a@b.co", "c@d.co"]] := rfl
  have hreach : PipelineReachable BATCH_CONCURRENCY_LIMIT ["a@b.co", "c@d.co"]
      ⟨[], ["a@b.co", "c@d.co"], []⟩ := by
    unfold PipelineReachable
    rw [hch]
    exact Relation.ReflTransGen.single (PipelineStep.startWindow _ _ _)
  exact ⟨hreach,
    (C1_sequential_windows_bound_concurrency ["a@b.co", "c@d.co"]).1.2.2.2 _ hreach⟩

/-- C2: every accepted non-empty batch within the bound produces exactly one
verdict per processed address (per unique address under duplicate filtering,
per input address otherwise), position `k` of the results settling position
`k` of the processed list, and `total` is the length of the results array. -/
theorem C2_batch_one_verdict_per_address (escape : String → String) (oc : Outcome)
    (emails : List String) (fd : Bool) (hne : emails ≠ []) (hlen : emails.length ≤ 10000) :
    ∃ resp, validateBatchHandler escape oc emails fd = .ok resp ∧
      resp.results.length = (emailsToProcess escape emails fd).length ∧
      resp.total = resp.results.length ∧
      ∀ k : Nat, resp.results[k]? =
        ((emailsToProcess escape emails fd)[k]?).map fun e => settleOne (oc k e) e := by
  refine ⟨_, validateBatchHandler_accepted escape oc emails fd hne hlen,
    settleList_length oc _ 0, rfl, fun k => ?_⟩
  simpa using settleList_getElem? oc (emailsToProcess escape emails fd) 0 k

/-- Witness for C2 at a concrete deduplicated batch. -/
theorem C2_batch_one_verdict_per_address_witness :
    (["A@x.com", "a@x.com"] : List String) ≠ [] ∧
    (["A@x.com", "a@x.com"] : List String).length ≤ 10000 ∧
    ∃ resp, validateBatchHandler id ocW ["A@x.com", "a@x.com"] true = .ok resp ∧
      resp.results.length = (emailsToProcess id ["A@x.com", "a@x.com"] true).length ∧
      resp.total = resp.results.length ∧
      ∀ k : Nat, resp.results[k]? =
        ((emailsToProcess id ["A@x.com", "a@x.com"] true)[k]?).map
          fun e => settleOne (ocW k e) e :=
  ⟨by decide, by decide,
    C2_batch_one_verdict_per_address id ocW ["A@x.com", "a@x.com"] true (by decide) (by decide)⟩

/-- C5: deduplication trims each address, keys it by its lower-cased form,
keeps first occurrences (trimmed casing) in input order, routes later
occurrences to the duplicates list in order, and partitions the input: the
two lists together are a permutation of the trimmed input, each preserves the
input order, kept keys are pairwise distinct, the key of every duplicate has a
kept representative, and the counters add up; the example of the spec computes as
stated. -/
theorem C5_dedup_partition (emails : List String) :
    (filterDuplicateEmails emails).totalOriginal = emails.length ∧
    (filterDuplicateEmails emails).totalUnique =
      (filterDuplicateEmails emails).uniqueEmails.length ∧
    (filterDuplicateEmails emails).totalDuplicates =
      (filterDuplicateEmails emails).duplicates.length ∧
    (filterDuplicateEmails emails).totalOriginal =
      (filterDuplicateEmails emails).totalUnique +
        (filterDuplicateEmails emails).totalDuplicates ∧
    List.Perm
      ((filterDuplicateEmails emails).uniqueEmails ++ (filterDuplicateEmails emails).duplicates)
      (emails.map jsTrim) ∧
    List.Sublist (filterDuplicateEmails emails).uniqueEmails (emails.map jsTrim) ∧
    List.Sublist (filterDuplicateEmails emails).duplicates (emails.map jsTrim) ∧
    ((filterDuplicateEmails emails).uniqueEmails.map jsToLower).Nodup ∧
    (∀ d ∈ (filterDuplicateEmails emails).duplicates,
      jsToLower d ∈ (filterDuplicateEmails emails).uniqueEmails.map jsToLower) ∧
    filterDuplicateEmails ["A@x.com", "a@x.com", "b@x.com"] =
      { uniqueEmails := ["A@x.com", "b@x.com"], duplicates := ["a@x.com"],
        totalOriginal := 3, totalUnique := 2, totalDuplicates := 1 } := by
  have hperm := filterAux_perm emails []
  refine ⟨rfl, rfl, rfl, ?_, hperm, filterAux_unique_sublist emails [],
    filterAux_dups_sublist emails [], ?_, ?_, by decide⟩
  · have hlen := hperm.length_eq
    simp only [List.length_append, List.length_map] at hlen
    exact hlen.symm
  · simpa using filterAux_keys_nodup emails [] List.nodup_nil
  · intro d hd
    rcases filterAux_dups_key_seen emails [] d hd with hcon | hkept
    · simp at hcon
    · exact hkept

/-- Witness for C5: the second occurrence in the example of the spec is a
duplicate whose key has a kept representative. -/
theorem C5_dedup_partition_witness :
    "a@x.com" ∈ (filterDuplicateEmails ["A@x.com", "a@x.com", "b@x.com"]).duplicates ∧
    jsToLower "a@x.com" ∈
      (filterDuplicateEmails ["A@x.com", "a@x.com", "b@x.com"]).uniqueEmails.map jsToLower :=
  ⟨by decide,
    (C5_dedup_partition ["A@x.com", "a@x.com", "b@x.com"]).2.2.2.2.2.2.2.2.1
      "a@x.com" (by decide)⟩

/-- C3: for every address whose normalization yields a string, the checks of
`validateEmail` run in order and short-circuit: a failed format/length check
(or a JS-falsy extracted domain) yields `invalid_format` with score 0 and no
DNS traffic; otherwise a disposable domain yields `disposable` with score 0
and no Resolver call; otherwise a false MX check yields `undeliverable` with
score 10; otherwise the verdict is `deliverable` with score 95 when SPF is
present and 80 when absent. -/
theorem C3_validateEmail_check_order (env : Env) (email : String) (cache : List CacheEntry)
    (now : Nat) (s : String) (hnorm : env.normalizeEmail email = some s) :
    ((isEmailFormatValid s = false ∨ domainPresent s = false) →
      validateEmail env email cache now =
        (.ok { email := s, result := .invalid_format, type := some .public, score := some 0,
               reason := "Invalid email format or missing domain" }, cache, [], [])) ∧
    (isEmailFormatValid s = true → domainPresent s = true →
      (extractedDomain s).getD "" ∈ DISPOSABLE_DOMAINS →
      validateEmail env email cache now =
        (.ok { email := s, result := .disposable, type := some .public, score := some 0,
               reason := "Disposable email domain" }, cache, [], [])) ∧
    (isEmailFormatValid s = true → domainPresent s = true →
      (extractedDomain s).getD "" ∉ DISPOSABLE_DOMAINS →
      (hasMXRecord env.dns ((extractedDomain s).getD "") 3 cache now).1 = false →
      validateEmail env email cache now =
        (.ok { email := s, result := .undeliverable,
               type := some (if (extractedDomain s).getD "" ∈ PUBLIC_DOMAINS then .public else .pro),
               score := some 10, reason := "Domain has no MX records" },
         (hasMXRecord env.dns ((extractedDomain s).getD "") 3 cache now).2.1,
         (hasMXRecord env.dns ((extractedDomain s).getD "") 3 cache now).2.2.1,
         (hasMXRecord env.dns ((extractedDomain s).getD "") 3 cache now).2.2.2)) ∧
    (isEmailFormatValid s = true → domainPresent s = true →
      (extractedDomain s).getD "" ∉ DISPOSABLE_DOMAINS →
      (hasMXRecord env.dns ((extractedDomain s).getD "") 3 cache now).1 = true →
      validateEmail env email cache now =
        (.ok { email := s, result := .deliverable,
               type := some (if (extractedDomain s).getD "" ∈ PUBLIC_DOMAINS then .public else .pro),
               score := some (if (checkSPF env.dns ((extractedDomain s).getD "")).1 then 95 else 80),
               reason := "Email is valid, domain has MX records" ++
                 (if (checkSPF env.dns ((extractedDomain s).getD "")).1 then " and SPF" else ""),
               typo := env.suggest s },
         (hasMXRecord env.dns ((extractedDomain s).getD "") 3 cache now).2.1,
         (hasMXRecord env.dns ((extractedDomain s).getD "") 3 cache now).2.2.1 ++
           (checkSPF env.dns ((extractedDomain s).getD "")).2,
         (hasMXRecord env.dns ((extractedDomain s).getD "") 3 cache now).2.2.2)) := by
  refine ⟨?_, ?_, ?_, ?_⟩
  · intro hfail
    simp only [validateEmail, hnorm]
    rcases hfail with h | h <;> simp [h]
  · intro hf hd hdisp
    simp only [validateEmail, hnorm, hf, hd]
    simp [hdisp]
  · intro hf hd hdisp hmx
    simp only [validateEmail, hnorm, hf, hd]
    simp [hdisp, hmx]
  · intro hf hd hdisp hmx
    simp only [validateEmail, hnorm, hf, hd]
    simp [hdisp, hmx]

/-- Witness for C3: the disposable branch at `"x@tempmail.com"` returns
`disposable`, score 0, with no DNS lookup performed. -/
theorem C3_validateEmail_check_order_witness :
    envW.normalizeEmail "x@tempmail.com" = some "x@tempmail.com" ∧
    isEmailFormatValid "x@tempmail.com" = true ∧
    domainPresent "x@tempmail.com" = true ∧
    (extractedDomain "x@tempmail.com").getD "" ∈ DISPOSABLE_DOMAINS ∧
    validateEmail envW "x@tempmail.com" [] 0 =
      (.ok { email := "x@tempmail.com", result := .disposable, type := some .public,
             score := some 0, reason := "Disposable email domain" }, [], [], []) :=
  ⟨by decide, by decide, by decide, by decide,
    (C3_validateEmail_check_order envW "x@tempmail.com" [] 0 "x@tempmail.com"
        (by decide)).2.1 (by decide) (by decide) (by decide)⟩

/-- C4 counterexample: the SPF check does not consult the Domain Cache and
does not retry.  `checkSPF` performs exactly one external TXT lookup on every
call — a second check of the same domain immediately after a first performs a
second lookup, and with a throwing resolver there is a single attempt
returning `false`, not three. -/
theorem C4_counterexample :
    (checkSPF dnsFailW "x.com").2 ≠ [] ∧
    ((checkSPF dnsFailW "x.com").2 ++ (checkSPF dnsFailW "x.com").2).length = 2 ∧
    checkSPF dnsFailW "x.com" = (false, [.txt "x.com"]) :=
  ⟨by decide, rfl, rfl⟩

/-- C4 amended: the MX check consults the Domain Cache first — a fresh cached
entry short-circuits with no external lookup, so a second MX check of the
same domain within the time-to-live performs no lookup at all; on a miss, up
to 3 attempts run with backoff 1s·attempt and total failure caches and
returns `false`, yielding the same boolean and the same cached value as an
authoritative empty answer.  The SPF check, by contrast, performs a single
uncached, unretried TXT lookup and returns `false` on failure. -/
theorem C4_mx_cached_spf_uncached (dns : Dns) (domain : String) (cache : List CacheEntry)
    (now now' : Nat) :
    (∀ v, cacheGet cache ("mx_" ++ domain) now = some v →
      hasMXRecord dns domain 3 cache now = (v, cache, [], [])) ∧
    (cacheGet cache ("mx_" ++ domain) now = none → now' < now + CACHE_TTL →
      hasMXRecord dns domain 3 ((hasMXRecord dns domain 3 cache now).2.1) now' =
        ((hasMXRecord dns domain 3 cache now).1,
         (hasMXRecord dns domain 3 cache now).2.1, [], [])) ∧
    (cacheGet cache ("mx_" ++ domain) now = none →
      dns.resolveMx domain 1 = none → dns.resolveMx domain 2 = none →
      dns.resolveMx domain 3 = none →
      hasMXRecord dns domain 3 cache now =
        (false, cacheSet cache ("mx_" ++ domain) false now,
          [.mx domain, .mx domain, .mx domain], [1000 * 1, 1000 * 2])) ∧
    (∀ dns₂ : Dns, cacheGet cache ("mx_" ++ domain) now = none →
      dns.resolveMx domain 1 = none → dns.resolveMx domain 2 = none →
      dns.resolveMx domain 3 = none → dns₂.resolveMx domain 1 = some 0 →
      (hasMXRecord dns domain 3 cache now).1 = (hasMXRecord dns₂ domain 3 cache now).1 ∧
      (hasMXRecord dns domain 3 cache now).2.1 = (hasMXRecord dns₂ domain 3 cache now).2.1) ∧
    (∀ rs, dns.resolveTxt domain = some rs →
      checkSPF dns domain = (rs.any includesSPF, [.txt domain])) ∧
    (dns.resolveTxt domain = none → checkSPF dns domain = (false, [.txt domain])) := by
  refine ⟨?_, ?_, ?_, ?_, ?_, ?_⟩
  · intro v h
    exact hasMXRecord_cache_hit dns domain 3 cache now v h
  · intro hmiss hlt
    have hget : cacheGet ((hasMXRecord dns domain 3 cache now).2.1) ("mx_" ++ domain) now' =
        some (hasMXRecord dns domain 3 cache now).1 := by
      rw [hasMXRecord_caches dns domain cache now hmiss]
      exact cacheGet_cacheSet_self cache ("mx_" ++ domain) _ now now' hlt
    exact hasMXRecord_cache_hit dns domain 3 _ now' _ hget
  · intro hmiss h1 h2 h3
    exact hasMXRecord_all_fail dns domain cache now hmiss h1 h2 h3
  · intro dns₂ hmiss h1 h2 h3 h1b
    rw [hasMXRecord_all_fail dns domain cache now hmiss h1 h2 h3,
      hasMXRecord_empty_answer dns₂ domain cache now hmiss h1b]
    exact ⟨rfl, rfl⟩
  · intro rs h
    unfold checkSPF
    rw [h]
  · intro h
    unfold checkSPF
    rw [h]

/-- Witness for the amended C4 on the throwing resolver with an empty
cache: three attempts, backoff 1000 and 2000 ms, `false` cached, and a second
call within the time-to-live performs no lookup. -/
theorem C4_mx_cached_spf_uncached_witness :
    cacheGet [] ("mx_" ++ "x.com") 0 = none ∧
    hasMXRecord dnsFailW "x.com" 3 [] 0 =
      (false, cacheSet [] ("mx_" ++ "x.com") false 0,
        [.mx "x.com", .mx "x.com", .mx "x.com"], [1000 * 1, 1000 * 2]) ∧
    hasMXRecord dnsFailW "x.com" 3 ((hasMXRecord dnsFailW "x.com" 3 [] 0).2.1) 10 =
      ((hasMXRecord dnsFailW "x.com" 3 [] 0).1,
       (hasMXRecord dnsFailW "x.com" 3 [] 0).2.1, [], []) ∧
    checkSPF dnsFailW "x.com" = (false, [.txt "x.com"]) :=
  ⟨rfl,
    (C4_mx_cached_spf_uncached dnsFailW "x.com" [] 0 10).2.2.1 rfl rfl rfl rfl,
    (C4_mx_cached_spf_uncached dnsFailW "x.com" [] 0 10).2.1 rfl (by decide),
    (C4_mx_cached_spf_uncached dnsFailW "x.com" [] 0 10).2.2.2.2.2 rfl⟩

/-- C6: in every accepted batch or stream request, the verdict of each address is
determined by its own settled outcome alone — a rejected validation becomes
an error verdict carrying the failure message for that address only, a
fulfilled one its verdict — and the full processed list is still reported:
the batch results keep one verdict per address, and a fault-free stream emits
one data event per address even when outcomes are rejections. -/
theorem C6_per_address_error_isolation (escape : String → String) (oc : Outcome)
    (emails : List String) (fd : Bool) (fault : Nat → Option String)
    (hne : emails ≠ []) (hlenB : emails.length ≤ 10000) :
    (∃ resp, validateBatchHandler escape oc emails fd = .ok resp ∧
      resp.results.length = (emailsToProcess escape emails fd).length ∧
      ∀ k e, (emailsToProcess escape emails fd)[k]? = some e →
        (∀ msg, oc k e = .error msg →
          resp.results[k]? = some { email := e, result := .error, type := none,
                                    score := none,
                                    reason := if msg = "" then "Validation failed" else msg }) ∧
        (∀ v, oc k e = .ok v → resp.results[k]? = some v)) ∧
    (emails.length ≤ 1000 → (∀ i, fault i = none) →
      ∃ evs, validateStreamHandler escape oc fault emails fd = .ok evs ∧
        (evs.filter StreamEvent.isData).length = (emailsToProcess escape emails fd).length) := by
  constructor
  · refine ⟨_, validateBatchHandler_accepted escape oc emails fd hne hlenB,
      settleList_length oc _ 0, ?_⟩
    intro k e hk
    have hget := settleList_getElem? oc (emailsToProcess escape emails fd) 0 k
    rw [hk] at hget
    simp only [Nat.zero_add, Option.map_some] at hget
    exact ⟨fun msg hmsg => by rw [hget]; simp [settleOne, hmsg],
      fun v hv => by rw [hget]; simp [settleOne, hv]⟩
  · intro hlenS hf
    refine ⟨_, validateStreamHandler_accepted escape oc fault emails fd hne hlenS, ?_⟩
    rw [runStream_no_fault oc fault hf _ 0 0, chunksOf_flatten _ (by decide)]
    have hlead : ∀ ev ∈ (if fd then
        [StreamEvent.duplicateInfo (filterDuplicateEmails (emails.map escape))] else []),
        StreamEvent.isData ev = false := by
      cases fd <;> simp [StreamEvent.isData]
    rw [List.filter_append, List.filter_append]
    rw [List.filter_eq_nil_iff.mpr (by simpa using hlead)]
    have hdata : (((settleList oc 0 (emailsToProcess escape emails fd)).map
        StreamEvent.data).filter StreamEvent.isData) =
        (settleList oc 0 (emailsToProcess escape emails fd)).map StreamEvent.data := by
      rw [List.filter_eq_self]
      intro ev hev
      rcases List.mem_map.mp hev with ⟨v, _, hv⟩
      rw [← hv]; rfl
    rw [hdata]
    simp [StreamEvent.isData, settleList_length]

/-- Witness for C6: a two-address batch whose first validation rejects still
reports both addresses, the first as an error verdict, the second normally. -/
theorem C6_per_address_error_isolation_witness :
    (["a@b.co", "c@d.co"] : List String) ≠ [] ∧
    ∃ resp, validateBatchHandler id ocErrW ["a@b.co", "c@d.co"] false = .ok resp ∧
      resp.results.length = 2 ∧
      resp.results[0]? = some { email := "a@b.co", result := .error, type := none,
                                score := none, reason := "boom" } ∧
      resp.results[1]? = some { email := "c@d.co", result := .deliverable, type := some .pro,
                                score := some 95,
                                reason := "Email is valid, domain has MX records and SPF" } := by
  refine ⟨by decide, ?_⟩
  obtain ⟨resp, hresp, hlen, hiso⟩ :=
    (C6_per_address_error_isolation id ocErrW ["a@b.co", "c@d.co"] false noFaultW
      (by decide) (by decide)).1
  refine ⟨resp, hresp, by rw [hlen]; rfl, ?_, ?_⟩
  · have h := (hiso 0 "a@b.co" rfl).1 "boom" rfl
    simpa using h
  · exact (hiso 1 "c@d.co" rfl).2 _ rfl

/-- C7: both handlers reject an empty list and an over-length list (10,000
for batch, 1,000 for stream) with a bounds error whose value is independent
of the escaping, outcome and fault collaborators — no validation work
contributes to it — while any non-empty list within the bound (in particular
one of exactly 10,000 resp. 1,000 addresses) is accepted. -/
theorem C7_bounds_reject_accept (escape : String → String) (oc : Outcome)
    (fault : Nat → Option String) (emails : List String) (fd : Bool) :
    (emails = [] →
      validateBatchHandler escape oc emails fd =
        .error "emails must be an array of email strings" ∧
      validateStreamHandler escape oc fault emails fd =
        .error "emails must be a comma-separated array via query string") ∧
    (emails.length > 10000 →
      validateBatchHandler escape oc emails fd =
        .error "Maximum 10000 emails per request allowed") ∧
    (emails ≠ [] → emails.length ≤ 10000 →
      ∃ resp, validateBatchHandler escape oc emails fd = .ok resp) ∧
    (emails.length > 1000 →
      validateStreamHandler escape oc fault emails fd =
        .error "Maximum 1000 emails per streaming request. Use POST /validate-batch for larger batches.") ∧
    (emails ≠ [] → emails.length ≤ 1000 →
      ∃ evs, validateStreamHandler escape oc fault emails fd = .ok evs) := by
  refine ⟨?_, ?_, ?_, ?_, ?_⟩
  · intro h; subst h; exact ⟨rfl, rfl⟩
  · intro h
    unfold validateBatchHandler
    rw [if_neg (by omega), if_pos h]
  · intro hne hlen
    exact ⟨_, validateBatchHandler_accepted escape oc emails fd hne hlen⟩
  · intro h
    unfold validateStreamHandler
    rw [if_neg (by omega), if_pos h]
  · intro hne hlen
    exact ⟨_, validateStreamHandler_accepted escape oc fault emails fd hne hlen⟩

/-- Witness for C7 at the exact boundaries: 10,000 accepted and 10,001
rejected in batch mode; 1,000 accepted and 1,001 rejected in stream mode. -/
theorem C7_bounds_reject_accept_witness :
    (List.replicate 10000 "a@b.co" : List String) ≠ [] ∧
    (List.replicate 10000 "a@b.co").length ≤ 10000 ∧
    (∃ resp, validateBatchHandler id ocW (List.replicate 10000 "a@b.co") false = .ok resp) ∧
    (List.replicate 10001 "a@b.co").length > 10000 ∧
    validateBatchHandler id ocW (List.replicate 10001 "a@b.co") false =
      .error "Maximum 10000 emails per request allowed" ∧
    (List.replicate 1000 "a@b.co").length ≤ 1000 ∧
    (∃ evs, validateStreamHandler id ocW noFaultW (List.replicate 1000 "a@b.co") false = .ok evs) ∧
    (List.replicate 1001 "a@b.co").length > 1000 ∧
    validateStreamHandler id ocW noFaultW (List.replicate 1001 "a@b.co") false =
      .error "Maximum 1000 emails per streaming request. Use POST /validate-batch for larger batches." := by
  have hne : ∀ n : Nat, 0 < n → (List.replicate n "a@b.co" : List String) ≠ [] := by
    intro n hn h
    have h2 := congrArg List.length h
    rw [List.length_replicate] at h2
    simp at h2
    omega
  refine ⟨hne 10000 (by omega), by rw [List.length_replicate], ?_, by rw [List.length_replicate]; omega,
    ?_, by rw [List.length_replicate], ?_, by rw [List.length_replicate]; omega, ?_⟩
  · exact (C7_bounds_reject_accept id ocW noFaultW (List.replicate 10000 "a@b.co") false).2.2.1
      (hne 10000 (by omega)) (by rw [List.length_replicate])
  · exact (C7_bounds_reject_accept id ocW noFaultW (List.replicate 10001 "a@b.co") false).2.1
      (by rw [List.length_replicate]; omega)
  · exact (C7_bounds_reject_accept id ocW noFaultW (List.replicate 1000 "a@b.co") false).2.2.2.2
      (hne 1000 (by omega)) (by rw [List.length_replicate])
  · exact (C7_bounds_reject_accept id ocW noFaultW (List.replicate 1001 "a@b.co") false).2.2.2.1
      (by rw [List.length_replicate]; omega)

/-- C8 counterexample: a batch of one disposable address.  Its summary (which
has counters only for deliverable, undeliverable, invalid_format and error —
`BatchResponse.summary` has no disposable field) sums to 0 while the total is
1: the counts do not cover every result category and do not sum to the
total. -/
theorem C8_counterexample :
    validateBatchHandler id ocW ["x@tempmail.com"] false = .ok respC8 ∧
    respC8.total = 1 ∧
    respC8.summary.deliverable + respC8.summary.undeliverable +
      respC8.summary.invalid_format + respC8.summary.error = 0 :=
  ⟨rfl, rfl, rfl⟩

/-- C8 amended: the batch summary counts the four categories deliverable,
undeliverable, invalid_format and error (the code builds no disposable
counter); the four counts plus the number of disposable verdicts equal the
total, so they sum to the total exactly when no verdict is disposable. -/
theorem C8_summary_counts (escape : String → String) (oc : Outcome) (emails : List String)
    (fd : Bool) (resp : BatchResponse)
    (h : validateBatchHandler escape oc emails fd = .ok resp) :
    resp.summary = mkSummary resp.results ∧
    resp.summary.deliverable + resp.summary.undeliverable + resp.summary.invalid_format +
        resp.summary.error +
      (resp.results.filter fun r => r.result == .disposable).length = resp.total ∧
    ((∀ r ∈ resp.results, ¬ r.result = .disposable) →
      resp.summary.deliverable + resp.summary.undeliverable + resp.summary.invalid_format +
        resp.summary.error = resp.total) := by
  have hne : emails ≠ [] := by
    intro hcon; subst hcon
    simp [validateBatchHandler] at h
  have hlen : emails.length ≤ 10000 := by
    by_contra hcon
    have h0 : ¬ emails.length = 0 := fun hh => hne (List.eq_nil_of_length_eq_zero hh)
    unfold validateBatchHandler at h
    rw [if_neg h0, if_pos (by omega)] at h
    exact absurd h (by simp)
  rw [validateBatchHandler_accepted escape oc emails fd hne hlen] at h
  injection h with h2
  subst h2
  refine ⟨rfl, mkSummary_sum _, ?_⟩
  intro hnone
  have hfil : ((settleList oc 0 (emailsToProcess escape emails fd)).filter
      fun r => r.result == .disposable) = [] := by
    rw [List.filter_eq_nil_iff]
    intro r hr
    simpa using hnone r hr
  have hsum := mkSummary_sum (settleList oc 0 (emailsToProcess escape emails fd))
  rw [hfil] at hsum
  simpa using hsum

/-- Witness for the amended C8 on a concrete disposable batch. -/
theorem C8_summary_counts_witness :
    validateBatchHandler id ocW ["x@tempmail.com"] false = .ok respC8 ∧
    respC8.summary.deliverable + respC8.summary.undeliverable +
      respC8.summary.invalid_format + respC8.summary.error +
      (respC8.results.filter fun r => r.result == .disposable).length = respC8.total :=
  ⟨rfl, (C8_summary_counts id ocW ["x@tempmail.com"] false respC8 rfl).2.1⟩

/-- C9 counterexample: a one-chunk stream whose processing throws ends with
the error data event of the catch path and never emits the terminal done
marker. -/
theorem C9_counterexample :
    validateStreamHandler id ocW faultW ["a@b.co"] false = .ok evsC9 ∧
    evsC9.getLast? ≠ some .done ∧
    StreamEvent.done ∉ evsC9 :=
  ⟨rfl, by decide, by decide⟩

/-- C9 amended: every accepted stream terminates, its last event being the
done marker or — when the chunk loop throws mid-stream — the error data
event of the catch path instead; when no internal error occurs the stream always
ends with the done marker. -/
theorem C9_stream_termination (escape : String → String) (oc : Outcome)
    (fault : Nat → Option String) (emails : List String) (fd : Bool) (evs : List StreamEvent)
    (h : validateStreamHandler escape oc fault emails fd = .ok evs) :
    (evs ≠ [] ∧
      (evs.getLast? = some .done ∨ ∃ m, evs.getLast? = some (.errorData m))) ∧
    ((∀ i, fault i = none) → evs.getLast? = some .done) := by
  have hne : emails ≠ [] := by
    intro hcon; subst hcon
    simp [validateStreamHandler] at h
  have hlen : emails.length ≤ 1000 := by
    by_contra hcon
    have h0 : ¬ emails.length = 0 := fun hh => hne (List.eq_nil_of_length_eq_zero hh)
    unfold validateStreamHandler at h
    rw [if_neg h0, if_pos (by omega)] at h
    exact absurd h (by simp)
  rw [validateStreamHandler_accepted escape oc fault emails fd hne hlen] at h
  injection h with h2
  subst h2
  have hrun := runStream_ne_nil oc fault
    (chunksOf STREAM_CONCURRENCY_LIMIT (emailsToProcess escape emails fd)) 0 0
  constructor
  · constructor
    · intro hcon
      exact hrun (List.append_eq_nil.mp hcon).2
    · rw [List.getLast?_append_of_ne_nil _ hrun]
      exact runStream_last oc fault _ 0 0
  · intro hf
    rw [List.getLast?_append_of_ne_nil _ hrun,
      runStream_no_fault oc fault hf _ 0 0,
      List.getLast?_append_of_ne_nil _ (by simp)]
    rfl

/-- Witness for the amended C9: a fault-free one-address stream ends
with the done marker. -/
theorem C9_stream_termination_witness :
    validateStreamHandler id ocW noFaultW ["a@b.co"] false = .ok evsOkC9 ∧
    evsOkC9.getLast? = some .done :=
  ⟨rfl, (C9_stream_termination id ocW noFaultW ["a@b.co"] false evsOkC9 rfl).2 (fun _ => rfl)⟩

/-- C10: when `validator.normalizeEmail` returns `false` for an address,
`validateEmail` throws (the non-string flows into `split`) instead of
returning an invalid_format verdict; the settling at the endpoints then reports
that address with result error, and such error verdicts carry no `type` and
no `score` field, unlike every verdict `validateEmail` itself returns, which
always carries both.  The batch endpoint on such a single address returns the
error verdict, counted under `error`, not `invalid_format`. -/
theorem C10_normalize_false_yields_error_verdict (env : Env) (email : String)
    (cache : List CacheEntry) (now : Nat) :
    (env.normalizeEmail email = none →
      validateEmail env email cache now = (.error THROW_MSG, cache, [], []) ∧
      settleOne (validateEmail env email cache now).1 email =
        { email := email, result := .error, type := none, score := none,
          reason := THROW_MSG } ∧
      validateBatchHandler id (fun _ e => (validateEmail env e cache now).1) [email] false =
        .ok { total := 1,
              results := [{ email := email, result := .error, type := none, score := none,
                            reason := THROW_MSG }],
              summary := { deliverable := 0, undeliverable := 0, invalid_format := 0,
                           error := 1 },
              duplicateFilter := none }) ∧
    (∀ v, (validateEmail env email cache now).1 = .ok v →
      v.type.isSome ∧ v.score.isSome) := by
  constructor
  · intro hnone
    have hthrow : validateEmail env email cache now = (.error THROW_MSG, cache, [], []) := by
      simp [validateEmail, hnone]
    have hsettle : settleOne (validateEmail env email cache now).1 email =
        { email := email, result := .error, type := none, score := none,
          reason := THROW_MSG } := by
      rw [hthrow]
      simp [settleOne, THROW_MSG]
    refine ⟨hthrow, hsettle, ?_⟩
    rw [validateBatchHandler_accepted id (fun _ e => (validateEmail env e cache now).1)
      [email] false (by simp) (by simp)]
    have hep : emailsToProcess id [email] false = [email] := by
      simp [emailsToProcess]
    rw [hep]
    have hlist : settleList (fun _ e => (validateEmail env e cache now).1) 0 [email] =
        [{ email := email, result := .error, type := none, score := none,
           reason := THROW_MSG }] := by
      show [settleOne (validateEmail env email cache now).1 email] = _
      rw [hsettle]
    rw [hlist]
    simp [mkSummary]
  · intro v hv
    cases hn : env.normalizeEmail email with
    | none =>
      rw [show validateEmail env email cache now = (.error THROW_MSG, cache, [], []) by
        simp [validateEmail, hn]] at hv
      exact absurd hv (by simp)
    | some s =>
      cases hf : isEmailFormatValid s with
      | false =>
        rw [show validateEmail env email cache now =
            (.ok { email := s, result := .invalid_format, type := some .public, score := some 0,
                   reason := "Invalid email format or missing domain" }, cache, [], []) by
          simp [validateEmail, hn, hf]] at hv
        simp at hv
        subst hv
        exact ⟨rfl, rfl⟩
      | true =>
        cases hd : domainPresent s with
        | false =>
          rw [show validateEmail env email cache now =
              (.ok { email := s, result := .invalid_format, type := some .public, score := some 0,
                     reason := "Invalid email format or missing domain" }, cache, [], []) by
            simp [validateEmail, hn, hf, hd]] at hv
          simp at hv
          subst hv
          exact ⟨rfl, rfl⟩
        | true =>
          by_cases hdisp : (extractedDomain s).getD "" ∈ DISPOSABLE_DOMAINS
          · rw [show validateEmail env email cache now =
                (.ok { email := s, result := .disposable, type := some .public, score := some 0,
                       reason := "Disposable email domain" }, cache, [], []) by
              simp [validateEmail, hn, hf, hd, hdisp]] at hv
            simp at hv
            subst hv
            exact ⟨rfl, rfl⟩
          · cases hmx : (hasMXRecord env.dns ((extractedDomain s).getD "") 3 cache now).1 with
            | false =>
              have hrun : validateEmail env email cache now =
                  (.ok { email := s, result := .undeliverable,
                         type := some (if (extractedDomain s).getD "" ∈ PUBLIC_DOMAINS
                                       then .public else .pro),
                         score := some 10, reason := "Domain has no MX records" },
                   (hasMXRecord env.dns ((extractedDomain s).getD "") 3 cache now).2.1,
                   (hasMXRecord env.dns ((extractedDomain s).getD "") 3 cache now).2.2.1,
                   (hasMXRecord env.dns ((extractedDomain s).getD "") 3 cache now).2.2.2) := by
                simp [validateEmail, hn, hf, hd, hdisp, hmx]
              rw [hrun] at hv
              simp at hv
              subst hv
              exact ⟨rfl, rfl⟩
            | true =>
              have hrun : validateEmail env email cache now =
                  (.ok { email := s, result := .deliverable,
                         type := some (if (extractedDomain s).getD "" ∈ PUBLIC_DOMAINS
                                       then .public else .pro),
                         score := some (if (checkSPF env.dns ((extractedDomain s).getD "")).1
                                        then 95 else 80),
                         reason := "Email is valid, domain has MX records" ++
                           (if (checkSPF env.dns ((extractedDomain s).getD "")).1
                            then " and SPF" else ""),
                         typo := env.suggest s },
                   (hasMXRecord env.dns ((extractedDomain s).getD "") 3 cache now).2.1,
                   (hasMXRecord env.dns ((extractedDomain s).getD "") 3 cache now).2.2.1 ++
                     (checkSPF env.dns ((extractedDomain s).getD "")).2,
                   (hasMXRecord env.dns ((extractedDomain s).getD "") 3 cache now).2.2.2) := by
                simp [validateEmail, hn, hf, hd, hdisp, hmx]
              rw [hrun] at hv
              simp at hv
              subst hv
              exact ⟨rfl, rfl⟩

/-- Witness for C10: `"+@gmail.com"` makes the modelled library return
`false`; `validateEmail` throws and the batch endpoint reports an error
verdict without `type` or `score`. -/
theorem C10_normalize_false_yields_error_verdict_witness :
    envW.normalizeEmail "+@gmail.com" = none ∧
    validateEmail envW "+@gmail.com" [] 0 = (.error THROW_MSG, [], [], []) ∧
    settleOne (validateEmail envW "+@gmail.com" [] 0).1 "+@gmail.com" =
      { email := "+@gmail.com", result := .error, type := none, score := none,
        reason := THROW_MSG } :=
  ⟨by decide,
    ((C10_normalize_false_yields_error_verdict envW "+@gmail.com" [] 0).1 (by decide)).1,
    ((C10_normalize_false_yields_error_verdict envW "+@gmail.com" [] 0).1 (by decide)).2.1⟩

end EmailServer
